import Mathlib

/-!
Verification of the matching-and-deduplication core of a canned-response
comment bot (bot.py), shallowly embedded in Lean 4.

Modelling conventions:
* Regular-expression matching is done by the external `re` library; a
  compiled case-insensitive pattern is embedded as its matching oracle, a
  function `String → Bool` that answers whether the pattern matches the
  text anywhere (the code only ever asks `re.search`/`re.findall` for
  truthiness, so this is the full observable behaviour).
* The two bounded dedup buffers are `collections.deque(maxlen=1000)`; a
  `deque.append` on a full deque evicts the leftmost element, embedded as
  `pushBounded` on lists.
* Disk persistence goes through the external `json` library; it is
  embedded at the document level: a JSON object with two string-array
  fields becomes an association list from keys to string lists.
* Side effects of one reply (the ledger append + atomic file rewrite, and
  the outbound reply call) are embedded as an ordered event trace.
-/

/-- Policy constant: MAX_COMMENTS_PER_SUBMISSION = 2 (bot.py line 23). -/
def MAX_COMMENTS_PER_SUBMISSION : Nat := 2

/-- Source class `CannedResponse` (bot.py lines 29-52): one pattern rule. The regex
lists hold matching oracles (see module docstring); `max_chars` defaults
to `sys.maxsize` in the source, here it is always explicit. -/
structure CannedResponse where
  search_keys : List String
  comment_regexes : List (String → Bool)
  response : String
  ignore_regexes : List (String → Bool)
  max_chars : Nat

/-- Source method `CannedResponse.get_response` (bot.py lines 40-52): if any comment
regex matches, then unless an ignore regex matches or the comment exceeds
`max_chars`, return the canned response; otherwise `None`. -/
def CannedResponse.get_response (r : CannedResponse) (comment : String) : Option String :=
  if r.comment_regexes.any (fun p => p comment) then
    if r.ignore_regexes.any (fun p => p comment) then
      none
    else if r.max_chars < comment.length then
      none
    else
      some r.response
  else
    none

/-- Source class `ReplyGenerator` (bot.py lines 55-74). The appended tail string is
called `postfix` in the source; that word is a Lean keyword, so the
field uses the name `suffix` from the design documentation. -/
structure ReplyGenerator where
  canned_responses : List CannedResponse
  comment_mention_reply : Option String
  suffix : String

/-- The `for` loop body of `ReplyGenerator.get_response` (bot.py lines
64-67): first canned response that produces a reply, in list order. -/
def ReplyGenerator.firstResponse : List CannedResponse → String → Option String
  | [], _ => none
  | r :: rest, comment =>
    match r.get_response comment with
    | some resp => some resp
    | none => ReplyGenerator.firstResponse rest comment

/-- Source method `ReplyGenerator.get_response` (bot.py lines 63-68): first matching
rule wins; the configured tail string is appended to the winning text. -/
def ReplyGenerator.get_response (g : ReplyGenerator) (comment : String) : Option String :=
  match ReplyGenerator.firstResponse g.canned_responses comment with
  | some resp => some (resp ++ g.suffix)
  | none => none

/-- Case-folding for ASCII letters, used only to build concrete
case-insensitive matching oracles for witnesses. -/
def lowerChar (c : Char) : Char :=
  if 65 ≤ c.toNat ∧ c.toNat ≤ 90 then Char.ofNat (c.toNat + 32) else c

/-- Literal match: does the first list occur as an initial segment of the
second? Returns the remainder on success. -/
def matchLit : List Char → List Char → Option (List Char)
  | [], cs => some cs
  | _ :: _, [] => none
  | p :: ps, c :: cs => if p == c then matchLit ps cs else none

/-- Substring search over character lists. -/
def hasSub (pat : List Char) : List Char → Bool
  | [] => pat.isEmpty
  | c :: cs =>
    match matchLit pat (c :: cs) with
    | some _ => true
    | none => hasSub pat cs

/-- A concrete case-insensitive substring oracle, standing in for a
compiled `re.I` pattern with no metacharacters. -/
def ciContains (pat : String) (s : String) : Bool :=
  hasSub (pat.data.map lowerChar) (s.data.map lowerChar)

/-- C1: `CannedResponse.get_response` returns the reply text exactly when
some comment regex matches, no ignore regex matches, and the comment
length is at most `max_chars`; in every other case, including when
`comment_regexes` is empty, it returns `none`. -/
theorem canned_response_get_response_spec (r : CannedResponse) (comment : String) :
    (r.get_response comment =
      if r.comment_regexes.any (fun p => p comment) = true
          ∧ r.ignore_regexes.any (fun p => p comment) = false
          ∧ comment.length ≤ r.max_chars
        then some r.response else none)
    ∧ (r.comment_regexes = [] → r.get_response comment = none) := by
  constructor
  · unfold CannedResponse.get_response
    cases hm : r.comment_regexes.any (fun p => p comment) with
    | false => simp [hm]
    | true =>
      cases hi : r.ignore_regexes.any (fun p => p comment) with
      | true => simp [hm, hi]
      | false =>
        by_cases hl : r.max_chars < comment.length
        · simp [hm, hi, hl, Nat.not_le.mpr hl]
        · simp [hm, hi, hl, Nat.not_lt.mp hl]
  · intro h
    unfold CannedResponse.get_response
    simp [h]

/-- Witness rule for C1: matches nothing because it has no match
patterns, even though every other gate would pass. -/
def emptyPatternRule : CannedResponse :=
  { search_keys := ["hello"], comment_regexes := [], response := "hi!",
    ignore_regexes := [], max_chars := 1000 }

/-- Witness rule for C1/C2: a concrete case-insensitive "hello" rule. -/
def helloRule : CannedResponse :=
  { search_keys := ["hello"], comment_regexes := [ciContains "hello"], response := "hi!",
    ignore_regexes := [ciContains "goodbye"], max_chars := 1000 }

/-- C1 witness: at a concrete rule with no match patterns the hypothesis
holds and the response is `none`; a concrete matching rule answers. -/
theorem canned_response_get_response_spec_witness :
    emptyPatternRule.comment_regexes = []
    ∧ emptyPatternRule.get_response "Hello there" = none :=
  ⟨rfl, (canned_response_get_response_spec emptyPatternRule "Hello there").2 rfl⟩

theorem firstResponse_eq_none_iff (rs : List CannedResponse) (c : String) :
    ReplyGenerator.firstResponse rs c = none ↔ ∀ r ∈ rs, r.get_response c = none := by
  induction rs with
  | nil => simp [ReplyGenerator.firstResponse]
  | cons r rest ih =>
    unfold ReplyGenerator.firstResponse
    cases h : r.get_response c with
    | some v => simp [h]
    | none => simp [h, ih]

theorem firstResponse_eq_some_iff (rs : List CannedResponse) (c : String) (resp : String) :
    ReplyGenerator.firstResponse rs c = some resp ↔
      ∃ (i : Nat) (r : CannedResponse), rs[i]? = some r ∧ r.get_response c = some resp ∧
        ∀ j, j < i → ∀ rj : CannedResponse, rs[j]? = some rj → rj.get_response c = none := by
  induction rs with
  | nil => simp [ReplyGenerator.firstResponse]
  | cons r rest ih =>
    unfold ReplyGenerator.firstResponse
    cases h : r.get_response c with
    | some v =>
      simp only [h]
      constructor
      · intro hv
        refine ⟨0, r, by simp, by rw [h]; exact hv, ?_⟩
        intro j hj rj _
        exact absurd hj (Nat.not_lt_zero j)
      · rintro ⟨i, ri, hget, hresp, hprev⟩
        cases i with
        | zero =>
          simp only [List.getElem?_cons_zero, Option.some.injEq] at hget
          rw [← hget, h] at hresp
          exact hresp
        | succ k =>
          have h0 := hprev 0 (Nat.succ_pos k) r (by simp)
          rw [h] at h0
          exact absurd h0 (by simp)
    | none =>
      simp only [h]
      rw [ih]
      constructor
      · rintro ⟨i, ri, hget, hresp, hprev⟩
        refine ⟨i + 1, ri, by simpa using hget, hresp, ?_⟩
        intro j hj rj hrj
        cases j with
        | zero =>
          simp only [List.getElem?_cons_zero, Option.some.injEq] at hrj
          rw [← hrj]
          exact h
        | succ m =>
          exact hprev m (by omega) rj (by simpa using hrj)
      · rintro ⟨i, ri, hget, hresp, hprev⟩
        cases i with
        | zero =>
          simp only [List.getElem?_cons_zero, Option.some.injEq] at hget
          rw [← hget, h] at hresp
          exact absurd hresp (by simp)
        | succ k =>
          refine ⟨k, ri, by simpa using hget, hresp, ?_⟩
          intro j hj rj hrj
          exact hprev (j + 1) (by omega) rj (by simpa using hrj)

theorem reply_generator_map_first (g : ReplyGenerator) (comment : String) :
    g.get_response comment =
      (ReplyGenerator.firstResponse g.canned_responses comment).map (fun resp => resp ++ g.suffix) := by
  unfold ReplyGenerator.get_response
  cases ReplyGenerator.firstResponse g.canned_responses comment <;> rfl

/-- C2: `ReplyGenerator.get_response` returns the output of the first
rule, in declared order, whose `get_response` is non-none, with the
configured tail string appended; it never uses a later rule when an
earlier one matches, and returns `none` when no rule matches. -/
theorem reply_generator_get_response_spec (g : ReplyGenerator) (comment : String) :
    (g.get_response comment = none ↔ ∀ r ∈ g.canned_responses, r.get_response comment = none)
    ∧ (∀ out, g.get_response comment = some out ↔
        ∃ (i : Nat) (r : CannedResponse) (resp : String),
          g.canned_responses[i]? = some r ∧ r.get_response comment = some resp
          ∧ out = resp ++ g.suffix
          ∧ ∀ j, j < i → ∀ rj : CannedResponse, g.canned_responses[j]? = some rj →
              rj.get_response comment = none) := by
  rw [reply_generator_map_first]
  constructor
  · rw [Option.map_eq_none']
    exact firstResponse_eq_none_iff g.canned_responses comment
  · intro out
    rw [Option.map_eq_some']
    constructor
    · rintro ⟨resp, hfirst, hout⟩
      obtain ⟨i, r, hget, hresp, hprev⟩ := (firstResponse_eq_some_iff _ _ _).mp hfirst
      exact ⟨i, r, resp, hget, hresp, hout.symm, hprev⟩
    · rintro ⟨i, r, resp, hget, hresp, hout, hprev⟩
      refine ⟨resp, ?_, hout.symm⟩
      exact (firstResponse_eq_some_iff _ _ _).mpr ⟨i, r, hget, hresp, hprev⟩

/-- Witness generator for C2: one concrete rule plus an attribution tail. -/
def helloGenerator : ReplyGenerator :=
  { canned_responses := [helloRule], comment_mention_reply := none, suffix := " -bot" }

/-- C2 witness: the concrete generator answers a concrete comment with
the first (index 0) rule text plus the tail string. -/
theorem reply_generator_get_response_spec_witness :
    helloGenerator.get_response "Hello there" = some "hi! -bot" :=
  ((reply_generator_get_response_spec helloGenerator "Hello there").2 "hi! -bot").mpr
    ⟨0, helloRule, "hi!", rfl, by decide, rfl,
      fun j hj rj _ => absurd hj (Nat.not_lt_zero j)⟩

/-- A comment as seen by the dedup/reply path: `comment.id`,
`comment.submission.id` and `comment.author` (absent author is `none`;
praw returns `None` for deleted authors, which is falsy). -/
structure Comment where
  id : String
  submissionId : String
  author : Option String
deriving DecidableEq

/-- The mutable bot state the dedup path touches: the two bounded deque
buffers (bot.py lines 103-106), the bot account name and the dry-run
flag. -/
structure BotState where
  replied_to_comments : List String
  commented_submissions : List String
  bot_username : String
  dry_run : Bool
deriving DecidableEq

/-- Embeds `collections.deque(maxlen=1000).append`: append on the right,
evicting the leftmost element when the deque is full. -/
def pushBounded (l : List String) (x : String) : List String :=
  if l.length < 1000 then l ++ [x] else l.drop 1 ++ [x]

/-- Source method `Bot._can_reply_to_comment` (bot.py lines 181-193): refuse when the
author is absent or is the bot itself, when the comment id is already in
`replied_to_comments`, or when the submission already collected
`MAX_COMMENTS_PER_SUBMISSION` replies. -/
def canReplyTo (b : BotState) (c : Comment) : Bool :=
  match c.author with
  | none => false
  | some a =>
    if a == b.bot_username then false
    else if b.replied_to_comments.contains c.id then false
    else if MAX_COMMENTS_PER_SUBMISSION ≤ b.commented_submissions.count c.submissionId then false
    else true

/-- C3 counterexample: a comment with no author and completely fresh ids.
The claim predicts `canReply` is true (the id is unrecorded and the
submission count is 0 < 2), but `_can_reply_to_comment` returns false
because of its author guard (bot.py lines 182-184). -/
theorem can_reply_claim_counterexample :
    canReplyTo
        { replied_to_comments := [], commented_submissions := [],
          bot_username := "bot", dry_run := false }
        { id := "c1", submissionId := "s1", author := none } = false
    ∧ ("c1" ∈ ([] : List String) → False)
    ∧ List.count "s1" ([] : List String) < MAX_COMMENTS_PER_SUBMISSION := by
  decide

theorem canReplyTo_iff (b : BotState) (c : Comment) :
    canReplyTo b c = true ↔
      (∃ a, c.author = some a ∧ a ≠ b.bot_username)
      ∧ c.id ∉ b.replied_to_comments
      ∧ b.commented_submissions.count c.submissionId < MAX_COMMENTS_PER_SUBMISSION := by
  unfold canReplyTo
  cases hauth : c.author with
  | none => simp
  | some a =>
    by_cases h1 : a = b.bot_username
    · simp [h1]
    · by_cases h2 : c.id ∈ b.replied_to_comments
      · simp [h1, h2, List.elem_iff]
      · by_cases h3 : MAX_COMMENTS_PER_SUBMISSION ≤ b.commented_submissions.count c.submissionId
        · simp [h1, h2, h3, List.elem_iff, Nat.not_lt.mpr h3]
        · simp [h1, h2, h3, List.elem_iff, Nat.not_le.mp h3]

/-- C3 (amended): `_can_reply_to_comment` returns true iff the comment
has an author other than the bot itself, its id is not in
`replied_to_comments`, and its submission id occurs fewer than
`MAX_COMMENTS_PER_SUBMISSION` (= 2) times in `commented_submissions`. -/
theorem can_reply_spec (b : BotState) (c : Comment) :
    canReplyTo b c = true ↔
      (∃ a, c.author = some a ∧ a ≠ b.bot_username)
      ∧ c.id ∉ b.replied_to_comments
      ∧ b.commented_submissions.count c.submissionId < MAX_COMMENTS_PER_SUBMISSION :=
  canReplyTo_iff b c

/-- Observable side effects of one reply: `record` is the ledger append
plus atomic rewrite of the JSON file (`_append_commented_items`), `reply`
is the outbound `comment.reply(response)` call. -/
inductive Event where
  | record (commentId : String) (submissionId : String)
  | reply (commentId : String) (text : String)
deriving DecidableEq

/-- Source method `Bot._send_reply` (bot.py lines 195-201): first
`_append_commented_items` (append both ids to the bounded buffers and
atomically persist), then, unless `dry_run`, the outbound reply call.
Returns the new state and the ordered event trace. -/
def sendReply (b : BotState) (c : Comment) (response : String) : BotState × List Event :=
  let b2 : BotState :=
    { b with replied_to_comments := pushBounded b.replied_to_comments c.id,
             commented_submissions := pushBounded b.commented_submissions c.submissionId }
  (b2, Event.record c.id c.submissionId ::
        (if b.dry_run then [] else [Event.reply c.id response]))

theorem mem_pushBounded_self (l : List String) (x : String) : x ∈ pushBounded l x := by
  unfold pushBounded
  by_cases h : l.length < 1000 <;> simp [h]

theorem canReplyTo_false_of_mem (b : BotState) (c : Comment)
    (h : c.id ∈ b.replied_to_comments) : canReplyTo b c = false := by
  unfold canReplyTo
  cases c.author with
  | none => rfl
  | some a =>
    by_cases h1 : a == b.bot_username
    · simp [h1]
    · simp only [h1, Bool.false_eq_true, if_false]
      simp
      intro hc2
      exact absurd h hc2

/-- C4: in `_send_reply` the ledger record (append + atomic persist) is
the first event of the trace; any outbound reply event occurs strictly
after it, and in the state already recorded at that point the comment can
no longer pass `_can_reply_to_comment` — a crash between record and send
loses at most the reply and never causes a double reply. -/
theorem send_reply_record_first (b : BotState) (c : Comment) (response : String) :
    (sendReply b c response).2.head? = some (Event.record c.id c.submissionId)
    ∧ (∀ i cid txt, (sendReply b c response).2[i]? = some (Event.reply cid txt) →
        0 < i ∧ (sendReply b c response).2[0]? = some (Event.record c.id c.submissionId))
    ∧ (∀ c2 : Comment, c2.id = c.id → canReplyTo (sendReply b c response).1 c2 = false) := by
  refine ⟨rfl, ?_, ?_⟩
  · intro i cid txt hi
    refine ⟨?_, by simp [sendReply]⟩
    cases i with
    | zero => simp [sendReply] at hi
    | succ k => omega
  · intro c2 h2
    apply canReplyTo_false_of_mem
    show c2.id ∈ pushBounded b.replied_to_comments c.id
    rw [h2]
    exact mem_pushBounded_self _ _

/-- Witness comment and state for the reply-path theorems. -/
def wComment : Comment := { id := "c1", submissionId := "s1", author := some "alice" }

/-- Fresh witness state: empty ledger, not a dry run. -/
def wState : BotState :=
  { replied_to_comments := [], commented_submissions := [],
    bot_username := "bot", dry_run := false }

/-- C4 witness: on the concrete comment the reply event sits at index 1,
after the record event at index 0, and the recorded id is refused
afterwards. -/
theorem send_reply_record_first_witness :
    (sendReply wState wComment "hi!").2[0]? = some (Event.record "c1" "s1")
    ∧ canReplyTo (sendReply wState wComment "hi!").1
        { id := "c1", submissionId := "s9", author := some "alice" } = false :=
  ⟨((send_reply_record_first wState wComment "hi!").2.1 1 "c1" "hi!" rfl).2,
   (send_reply_record_first wState wComment "hi!").2.2
     { id := "c1", submissionId := "s9", author := some "alice" } rfl⟩

/-- C10: dry-run mode mutates and persists the ledger exactly as a real
run (the resulting buffers are identical), emits the record event, skips
only the outbound reply event, and afterwards the recorded comment id can
no longer pass `_can_reply_to_comment` in any later run. -/
theorem dry_run_records_spec (b : BotState) (c : Comment) (response : String) :
    ((sendReply { b with dry_run := true } c response).1.replied_to_comments =
      (sendReply { b with dry_run := false } c response).1.replied_to_comments)
    ∧ ((sendReply { b with dry_run := true } c response).1.commented_submissions =
      (sendReply { b with dry_run := false } c response).1.commented_submissions)
    ∧ Event.record c.id c.submissionId ∈ (sendReply { b with dry_run := true } c response).2
    ∧ (∀ cid txt, Event.reply cid txt ∉ (sendReply { b with dry_run := true } c response).2)
    ∧ (∀ c2 : Comment, c2.id = c.id →
        canReplyTo (sendReply { b with dry_run := true } c response).1 c2 = false) := by
  refine ⟨rfl, rfl, ?_, ?_, ?_⟩
  · simp [sendReply]
  · intro cid txt
    simp [sendReply]
  · intro c2 h2
    apply canReplyTo_false_of_mem
    show c2.id ∈ pushBounded b.replied_to_comments c.id
    rw [h2]
    exact mem_pushBounded_self _ _

/-- C10 witness: after a dry-run reply to the concrete comment, the same
comment is refused by the dedup check. -/
theorem dry_run_records_spec_witness :
    canReplyTo (sendReply { wState with dry_run := true } wComment "hi!").1 wComment = false :=
  (dry_run_records_spec wState wComment "hi!").2.2.2.2 wComment rfl

theorem pushBounded_length_le (l : List String) (x : String) (h : l.length ≤ 1000) :
    (pushBounded l x).length ≤ 1000 := by
  unfold pushBounded
  by_cases h1 : l.length < 1000 <;> simp [h1] <;> omega

theorem foldl_pushBounded (xs : List String) : ∀ l : List String, l.length ≤ 1000 →
    xs.foldl pushBounded l = (l ++ xs).drop (l.length + xs.length - 1000) := by
  induction xs with
  | nil =>
    intro l h
    simp [Nat.sub_eq_zero_of_le h]
  | cons x rest ih =>
    intro l h
    rw [List.foldl_cons, ih (pushBounded l x) (pushBounded_length_le l x h)]
    by_cases h1 : l.length < 1000
    · have e : pushBounded l x = l ++ [x] := by simp [pushBounded, h1]
      rw [e]
      have e2 : (l ++ [x]).length + rest.length - 1000 =
          l.length + (x :: rest).length - 1000 := by
        simp only [List.length_append, List.length_cons, List.length_nil]
        omega
      have e3 : (l ++ [x]) ++ rest = l ++ x :: rest := by simp
      rw [e2, e3]
    · have hlen : l.length = 1000 := Nat.le_antisymm h (Nat.not_lt.mp h1)
      obtain ⟨a, l2, rfl⟩ : ∃ a l2, l = a :: l2 := by
        cases l with
        | nil => simp at hlen
        | cons a l2 => exact ⟨a, l2, rfl⟩
      have hl2 : l2.length = 999 := by
        simp only [List.length_cons] at hlen
        omega
      have e : pushBounded (a :: l2) x = l2 ++ [x] := by
        simp [pushBounded, h1]
        omega
      rw [e]
      have e2 : (l2 ++ [x]).length + rest.length - 1000 = rest.length := by
        simp only [List.length_append, List.length_cons, List.length_nil]
        omega
      have e3 : (a :: l2).length + (x :: rest).length - 1000 = rest.length + 1 := by
        simp only [List.length_cons]
        omega
      rw [e2, e3]
      have e4 : (a :: l2) ++ x :: rest = a :: (l2 ++ x :: rest) := rfl
      rw [e4, List.drop_succ_cons]
      have e5 : (l2 ++ [x]) ++ rest = l2 ++ x :: rest := by simp
      rw [e5]

/-- C5: a `pushBounded` append keeps each buffer at or under 1000
entries, and after recording 1001 distinct comment ids into an empty
buffer the result is exactly the last 1000 ids: the oldest id has been
evicted, and `_can_reply_to_comment` on it is decided by the current
buffer contents alone — with a fresh author and submission it passes. -/
theorem ledger_eviction_spec (ids : List String) (hd : String)
    (h1 : ids.head? = some hd) (h2 : ids.length = 1001) (h3 : ids.Nodup) :
    (∀ l x, l.length ≤ 1000 → (pushBounded l x).length ≤ 1000)
    ∧ ids.foldl pushBounded [] = ids.drop 1
    ∧ hd ∉ ids.foldl pushBounded []
    ∧ (ids.foldl pushBounded []).length = 1000
    ∧ (∀ u d subs s a, a ≠ u → List.count s subs < MAX_COMMENTS_PER_SUBMISSION →
        canReplyTo { replied_to_comments := ids.foldl pushBounded [],
                     commented_submissions := subs, bot_username := u, dry_run := d }
          { id := hd, submissionId := s, author := some a } = true) := by
  obtain ⟨rest, rfl⟩ : ∃ rest, ids = hd :: rest := by
    cases ids with
    | nil => simp at h1
    | cons a rest =>
      simp only [List.head?_cons, Option.some.injEq] at h1
      exact ⟨rest, by rw [h1]⟩
  have hfold : (hd :: rest).foldl pushBounded [] = rest := by
    rw [foldl_pushBounded (hd :: rest) [] (by simp)]
    simp only [List.nil_append, List.length_nil, Nat.zero_add, h2]
    rw [show (1001 : Nat) - 1000 = 1 from rfl, List.drop_succ_cons, List.drop_zero]
  have hmem : hd ∉ rest := (List.nodup_cons.mp h3).1
  have hrestlen : rest.length = 1000 := by
    simp only [List.length_cons] at h2
    omega
  refine ⟨pushBounded_length_le, ?_, ?_, ?_, ?_⟩
  · rw [hfold, List.drop_succ_cons, List.drop_zero]
  · rw [hfold]
    exact hmem
  · rw [hfold]
    exact hrestlen
  · intro u d subs s a ha hcount
    rw [hfold]
    exact (canReplyTo_iff _ _).mpr ⟨⟨a, rfl, ha⟩, hmem, hcount⟩

/-- 1001 pairwise distinct comment ids: the strings "", "a", "aa", ... -/
def evictionIds : List String :=
  (List.range 1001).map (fun n => String.mk (List.replicate n 'a'))

theorem evictionIds_nodup : evictionIds.Nodup := by
  have hinj : Function.Injective (fun n => String.mk (List.replicate n 'a')) := by
    intro m n hmn
    have hlen := congrArg (fun s => s.data.length) hmn
    simpa using hlen
  exact List.Nodup.map hinj (List.nodup_range 1001)

/-- C5 witness: the concrete id list has head "", length 1001 and no
duplicates; after folding it into an empty buffer the evicted head "" is
accepted again by the dedup check for a fresh author and submission. -/
theorem ledger_eviction_spec_witness :
    evictionIds.head? = some "" ∧ evictionIds.length = 1001 ∧ evictionIds.Nodup
    ∧ "" ∉ evictionIds.foldl pushBounded []
    ∧ canReplyTo { replied_to_comments := evictionIds.foldl pushBounded [],
                   commented_submissions := [], bot_username := "bot", dry_run := false }
        { id := "", submissionId := "s1", author := some "alice" } = true := by
  have h1 : evictionIds.head? = some "" := by
    rw [evictionIds, show (1001 : Nat) = 1000 + 1 from rfl, List.range_succ_eq_map,
      List.map_cons, List.head?_cons]
    rfl
  have h2 : evictionIds.length = 1001 := by simp [evictionIds]
  have h3 := evictionIds_nodup
  refine ⟨h1, h2, h3, ?_, ?_⟩
  · exact (ledger_eviction_spec evictionIds "" h1 h2 h3).2.2.1
  · exact (ledger_eviction_spec evictionIds "" h1 h2 h3).2.2.2.2 "bot" false [] "s1" "alice"
      (by decide) (by decide)

/-- The `json.dumps` payload of `_append_commented_items` (bot.py lines
111-114), at the document level: a JSON object with the two buffer
arrays under their fixed keys. -/
def dumpCommentedItems (b : BotState) : List (String × List String) :=
  [("replied_to_comments", b.replied_to_comments),
   ("commented_submissions", b.commented_submissions)]

/-- Embeds `dict.get(key, [])` on the parsed document. -/
def dictGet (d : List (String × List String)) (k : String) : List String :=
  match d.find? (fun kv => kv.1 == k) with
  | some kv => kv.2
  | none => []

/-- Embeds `collections.deque(init, maxlen=1000)`: keeps the last 1000 items. -/
def dequeInit1000 (l : List String) : List String :=
  l.drop (l.length - 1000)

/-- Source method `Bot._load_commented_items` (bot.py lines 96-106): a missing file is
empty history; otherwise each buffer is read from its key (defaulting to
`[]`) into a deque bounded at 1000. -/
def loadCommentedItems (d : Option (List (String × List String))) :
    List String × List String :=
  match d with
  | none => ([], [])
  | some doc =>
    (dequeInit1000 (dictGet doc "replied_to_comments"),
     dequeInit1000 (dictGet doc "commented_submissions"))

/-- C6: writing the ledger document and reading it back reproduces both
buffers exactly, in order, for every state satisfying the deque bound. -/
theorem ledger_round_trip (b : BotState)
    (h1 : b.replied_to_comments.length ≤ 1000)
    (h2 : b.commented_submissions.length ≤ 1000) :
    loadCommentedItems (some (dumpCommentedItems b)) =
      (b.replied_to_comments, b.commented_submissions) := by
  have k1 : dictGet (dumpCommentedItems b) "replied_to_comments" =
      b.replied_to_comments := by
    unfold dictGet dumpCommentedItems
    rw [List.find?_cons_of_pos _ (by rfl)]
  have k2 : dictGet (dumpCommentedItems b) "commented_submissions" =
      b.commented_submissions := by
    unfold dictGet dumpCommentedItems
    rw [List.find?_cons_of_neg _ (by simp), List.find?_cons_of_pos _ (by rfl)]
  have e : loadCommentedItems (some (dumpCommentedItems b)) =
      (dequeInit1000 (dictGet (dumpCommentedItems b) "replied_to_comments"),
       dequeInit1000 (dictGet (dumpCommentedItems b) "commented_submissions")) := rfl
  rw [e, k1, k2]
  unfold dequeInit1000
  rw [Nat.sub_eq_zero_of_le h1, Nat.sub_eq_zero_of_le h2, List.drop_zero, List.drop_zero]

/-- C6 witness: a concrete small state round-trips. -/
theorem ledger_round_trip_witness :
    loadCommentedItems (some (dumpCommentedItems
        { replied_to_comments := ["c1", "c2"], commented_submissions := ["s1"],
          bot_username := "bot", dry_run := false })) = (["c1", "c2"], ["s1"]) :=
  ledger_round_trip
    { replied_to_comments := ["c1", "c2"], commented_submissions := ["s1"],
      bot_username := "bot", dry_run := false }
    (by decide) (by decide)

/-- A comment returned by the comment-search API, with its creation
time (`created_utc`, truncated to an integer by the source). -/
structure ScrapedComment where
  id : String
  submissionId : String
  author : Option String
  body : String
  created_utc : Nat
deriving DecidableEq

/-- The dedup-relevant projection of a scraped comment. -/
def ScrapedComment.toComment (c : ScrapedComment) : Comment :=
  { id := c.id, submissionId := c.submissionId, author := c.author }

/-- Source method `Bot._handle_scraped_comment` (bot.py lines 163-168): compute a
response; if it is truthy (non-empty) and the dedup check passes, send
the reply. -/
def handleScrapedComment (g : ReplyGenerator) (b : BotState) (c : ScrapedComment) :
    BotState × List Event :=
  match g.get_response c.body with
  | none => (b, [])
  | some resp =>
    if resp ≠ "" ∧ canReplyTo b c.toComment = true then
      sendReply b c.toComment resp
    else
      (b, [])

/-- The per-subreddit body of `Bot._scrape_and_handle_comments` (bot.py
lines 137-159): on a non-empty batch, note whether the page was full,
advance the cursor to the creation time of the last comment received,
then handle every comment of the batch in order; an empty batch leaves
everything unchanged. Returns (new cursor, new state, events, batch was
not full). -/
def scrapeSubreddit (g : ReplyGenerator) (b : BotState) (cursor : Nat)
    (batch : List ScrapedComment) : Nat × BotState × List Event × Bool :=
  match batch.getLast? with
  | none => (cursor, b, [], true)
  | some lastC =>
    let handledAll := batch.length ≠ 500
    let folded := batch.foldl
      (fun acc c =>
        let r := handleScrapedComment g acc.1 c
        (r.1, acc.2 ++ r.2))
      (b, ([] : List Event))
    (lastC.created_utc, folded.1, folded.2, handledAll)

/-- C7: on an empty batch the cursor is unchanged; on a non-empty batch
the cursor after the step equals the creation time of the last comment of
the batch, independently of the rule set and ledger state (so skipped
comments do not hold it back), and it strictly advances whenever the
batch only holds comments newer than the old cursor (which the
`after=cursor` ascending query guarantees), so no comment is re-fetched. -/
theorem scrape_cursor_spec (g : ReplyGenerator) (b : BotState) (cursor : Nat)
    (batch : List ScrapedComment) :
    (batch = [] → scrapeSubreddit g b cursor batch = (cursor, b, [], true))
    ∧ (∀ lastC, batch.getLast? = some lastC →
        ((scrapeSubreddit g b cursor batch).1 = lastC.created_utc
          ∧ (∀ g2 b2, (scrapeSubreddit g2 b2 cursor batch).1 =
              (scrapeSubreddit g b cursor batch).1)
          ∧ ((∀ c ∈ batch, cursor < c.created_utc) →
              cursor < (scrapeSubreddit g b cursor batch).1))) := by
  constructor
  · intro h
    rw [h]
    rfl
  · intro lastC hlast
    have e : ∀ g3 (b3 : BotState), (scrapeSubreddit g3 b3 cursor batch).1 =
        lastC.created_utc := by
      intro g3 b3
      unfold scrapeSubreddit
      rw [hlast]
    refine ⟨e g b, fun g2 b2 => by rw [e g2 b2, e g b], ?_⟩
    intro hafter
    rw [e g b]
    have hm : lastC ∈ batch := by
      obtain ⟨hne, he⟩ := List.mem_getLast?_eq_getLast (x := lastC)
        (by rw [Option.mem_def]; exact hlast)
      rw [he]
      exact List.getLast_mem hne
    exact hafter lastC hm

/-- Concrete two-comment batch for the C7 witness. -/
def wBatch : List ScrapedComment :=
  [{ id := "c1", submissionId := "s1", author := some "alice",
     body := "Hello there", created_utc := 5 },
   { id := "c2", submissionId := "s1", author := some "alice",
     body := "no match", created_utc := 9 }]

/-- C7 witness: the concrete batch moves the cursor from 3 to the
creation time 9 of its last comment, and an empty batch keeps it. -/
theorem scrape_cursor_spec_witness :
    (scrapeSubreddit helloGenerator wState 3 [] = (3, wState, [], true))
    ∧ 3 < (scrapeSubreddit helloGenerator wState 3 wBatch).1 :=
  ⟨(scrape_cursor_spec helloGenerator wState 3 []).1 rfl,
   ((scrape_cursor_spec helloGenerator wState 3 wBatch).2
      { id := "c2", submissionId := "s1", author := some "alice",
        body := "no match", created_utc := 9 } (by rfl)).2.2 (by decide)⟩

/-- Digit-string value, `int` conversion of a run of decimal digits. -/
def digitsVal (ds : List Char) : Nat :=
  ds.foldl (fun n c => n * 10 + (c.toNat - 48)) 0

/-- Try to read the shape handled by
`parse.search("try again in {:d} minutes", msg)` at the head of the
character list: the literal "try again in ", one or more digits, then the
literal " minutes". -/
def matchRatelimitAt (cs : List Char) : Option Nat :=
  match matchLit "try again in ".data cs with
  | none => none
  | some rest =>
    let ds := rest.takeWhile Char.isDigit
    if ds.isEmpty then
      none
    else
      match matchLit " minutes".data (rest.drop ds.length) with
      | none => none
      | some _ => some (digitsVal ds)

/-- Scan for the first occurrence of the rate-limit shape anywhere in
the message, as `parse.search` does. -/
def searchRatelimit : List Char → Option Nat
  | [] => none
  | c :: cs =>
    match matchRatelimitAt (c :: cs) with
    | some n => some n
    | none => searchRatelimit cs

/-- The rate-limit minute count parsed from a failure message
(bot.py line 218). -/
def parseRatelimitMinutes (msg : String) : Option Nat :=
  searchRatelimit msg.data

/-- Outcome of the body of one `Bot.run` iteration (bot.py lines
209-225): either it finished normally, with the unread-inbox item count
and, if a search query is configured, the per-subreddit batch sizes of
the comment scrape; or it raised, with the exception message. -/
inductive IterOutcome where
  | ok (unreadCount : Nat) (searchActive : Bool) (batchLens : List Nat)
  | err (msg : String)
deriving DecidableEq

/-- Source flag `handled_all_messages` (bot.py line 130): the unread page was not
full (fewer than the 25-item page limit). -/
def handledAllMessages (unreadCount : Nat) : Bool :=
  unreadCount < 25

/-- Source flag `handled_all_comments` (bot.py lines 135, 152-153): true unless some
subreddit returned a full 500-item page; vacuously true when the comment
scrape is skipped. -/
def handledAllComments (searchActive : Bool) (batchLens : List Nat) : Bool :=
  if searchActive then batchLens.all (fun n => n ≠ 500) else true

/-- Seconds slept at the end of one `Bot.run` iteration: 30 seconds only
when an exception-free iteration drained both fetches; on an exception,
the parsed rate-limit minutes (converted to seconds) when present,
otherwise nothing. -/
def iterationSleepSeconds : IterOutcome → Nat
  | IterOutcome.ok unread searchActive lens =>
    if handledAllMessages unread && handledAllComments searchActive lens then 30 else 0
  | IterOutcome.err msg =>
    match parseRatelimitMinutes msg with
    | some n => n * 60
    | none => 0

/-- Embeds `while True` + `except Exception` (bot.py lines 210-221): every
iteration outcome is survived and the loop re-enters. -/
def iterationContinues : IterOutcome → Bool :=
  fun _ => true

/-- C8: an exception-free iteration with an active comment search sleeps
the fixed 30-second backoff exactly when the inbox page was under its
25-item limit and every subreddit batch was under its 500-item limit;
otherwise it re-enters immediately (sleeps 0 seconds). -/
theorem run_backoff_spec (unread : Nat) (lens : List Nat)
    (hcap : ∀ n ∈ lens, n ≤ 500) :
    (iterationSleepSeconds (IterOutcome.ok unread true lens) = 30 ↔
      unread < 25 ∧ ∀ n ∈ lens, n < 500)
    ∧ (¬ (unread < 25 ∧ ∀ n ∈ lens, n < 500) →
        iterationSleepSeconds (IterOutcome.ok unread true lens) = 0) := by
  have key : (handledAllMessages unread && handledAllComments true lens) = true ↔
      unread < 25 ∧ ∀ n ∈ lens, n < 500 := by
    rw [Bool.and_eq_true]
    unfold handledAllMessages handledAllComments
    rw [if_pos rfl, List.all_eq_true]
    constructor
    · rintro ⟨hu, hl⟩
      refine ⟨by simpa using hu, fun n hn => ?_⟩
      have h1 := hcap n hn
      have h2 := hl n hn
      simp only [ne_eq, decide_not, Bool.not_eq_true', decide_eq_false_iff_not] at h2
      omega
    · rintro ⟨hu, hl⟩
      refine ⟨by simpa using hu, fun n hn => ?_⟩
      have := hl n hn
      simp only [ne_eq, decide_not, Bool.not_eq_true', decide_eq_false_iff_not]
      omega
  have e : iterationSleepSeconds (IterOutcome.ok unread true lens) =
      if (handledAllMessages unread && handledAllComments true lens) = true
        then 30 else 0 := rfl
  constructor
  · rw [e]
    cases hb : handledAllMessages unread && handledAllComments true lens
    · rw [if_neg (by simp)]
      rw [← key, hb]
      simp
    · rw [if_pos rfl]
      rw [← key, hb]
      simp
  · intro hnot
    rw [e, if_neg (by rw [key]; exact hnot)]

/-- C8 witness: a drained iteration (3 unread, batches 10 and 0) sleeps
30 seconds; one with a full 500-comment batch sleeps 0. -/
theorem run_backoff_spec_witness :
    iterationSleepSeconds (IterOutcome.ok 3 true [10, 0]) = 30
    ∧ iterationSleepSeconds (IterOutcome.ok 3 true [500]) = 0 :=
  ⟨(run_backoff_spec 3 [10, 0] (by decide)).1.mpr (by decide),
   (run_backoff_spec 3 [500] (by decide)).2 (by decide)⟩

/-- C9: an exception never ends the loop; when the message contains the
"try again in N minutes" shape the iteration sleeps N minutes (N*60
seconds), and when it does not, nothing is slept (in particular not the
30-second backoff) and the loop just continues. -/
theorem run_exception_spec (msg : String) :
    iterationContinues (IterOutcome.err msg) = true
    ∧ (∀ n, parseRatelimitMinutes msg = some n →
        iterationSleepSeconds (IterOutcome.err msg) = n * 60)
    ∧ (parseRatelimitMinutes msg = none →
        iterationSleepSeconds (IterOutcome.err msg) = 0) := by
  have e : iterationSleepSeconds (IterOutcome.err msg) =
      match parseRatelimitMinutes msg with
      | some n => n * 60
      | none => 0 := rfl
  refine ⟨rfl, ?_, ?_⟩
  · intro n hn
    rw [e, hn]
  · intro hn
    rw [e, hn]

/-- C9 witness: a concrete rate-limited message sleeps 8*60 seconds, and
a message without the shape sleeps nothing. -/
theorem run_exception_spec_witness :
    iterationSleepSeconds (IterOutcome.err
      "RATELIMIT: you are doing that too much. try again in 8 minutes.") = 480
    ∧ iterationSleepSeconds (IterOutcome.err "connection reset by peer") = 0 :=
  ⟨(run_exception_spec
      "RATELIMIT: you are doing that too much. try again in 8 minutes.").2.1 8 (by decide),
   (run_exception_spec "connection reset by peer").2.2 (by decide)⟩
